import Mathlib

/-!
Verification development for the portalbox outbound tunnel client.

Byte streams are modelled as lists of naturals (each < 256 where relevant);
reading consumes a prefix of the list and returns the rest.  Fallible
operations return Except.  All definitions are translated from the Rust
sources in crates/models/src/protocol.rs and
crates/client/src/proxy_client.rs.
-/

namespace Portalbox

/-! Wire codec, from crates/models/src/protocol.rs -/

def AUTH_TOKEN_LENGTH : Nat := 80

/-- Embedding of the enum ProxyConnectionMessage (protocol.rs): the closed
set of 2-byte message codes, with their repr(u16) discriminants given by
ProxyConnectionMessage.code. -/
inductive ProxyConnectionMessage where
  | AuthOk
  | AuthFailed
  | Ping
  | Pong
  | Data
  deriving DecidableEq, Repr

namespace ProxyConnectionMessage

/-- Discriminant of each variant, as declared in the Rust enum
(AuthOk = 0x1111, AuthFailed = 0x2222, Ping = 0x3333, Pong = 0x4444,
Data = 0x5555). -/
def code : ProxyConnectionMessage → Nat
  | AuthOk => 0x1111
  | AuthFailed => 0x2222
  | Ping => 0x3333
  | Pong => 0x4444
  | Data => 0x5555

/-- Embedding of TryFromPrimitive for ProxyConnectionMessage: a u16 code is
accepted exactly when it is a declared discriminant. -/
def tryFrom (c : Nat) : Option ProxyConnectionMessage :=
  if c = 0x1111 then some AuthOk
  else if c = 0x2222 then some AuthFailed
  else if c = 0x3333 then some Ping
  else if c = 0x4444 then some Pong
  else if c = 0x5555 then some Data
  else none

end ProxyConnectionMessage

/-- The closed set of declared message codes. -/
def proxyMessageCodes : List Nat := [0x1111, 0x2222, 0x3333, 0x4444, 0x5555]

/-- Big-endian bytes of a u16 value (u16::to_be_bytes). -/
def u16BeBytes (n : Nat) : List Nat := [n / 256 % 256, n % 256]

/-- u16::from_be_bytes on a 2-byte buffer. -/
def beU16 : List Nat → Nat
  | [a, b] => a * 256 + b
  | _ => 0

/-- Error cases surfaced by the codec functions (anyhow errors in the
source, distinguished here by their origin). -/
inductive ProtoError where
  | eof
  | unknownFrame
  | badUtf8
  | invalidHostLength
  deriving DecidableEq, Repr

/-- Embedding of read_proxy_message (protocol.rs): read exactly 2 bytes,
parse the big-endian code, and convert via TryFromPrimitive. -/
def read_proxy_message (stream : List Nat) :
    Except ProtoError (ProxyConnectionMessage × List Nat) :=
  match stream with
  | b0 :: b1 :: rest =>
    match ProxyConnectionMessage.tryFrom (beU16 [b0, b1]) with
    | some m => .ok (m, rest)
    | none => .error .unknownFrame
  | _ => .error .eof

/-- Embedding of write_proxy_message (protocol.rs): the bytes written to the
stream are the big-endian encoding of the discriminant. -/
def write_proxy_message (m : ProxyConnectionMessage) : List Nat :=
  u16BeBytes m.code

/-- Continuation byte of a UTF-8 sequence (0x80 ..= 0xBF). -/
def utf8Cont (b : Nat) : Bool := 0x80 ≤ b && b ≤ 0xBF

/-- Allowed second byte after a 3-byte leading byte, per the UTF-8
well-formedness table used by str::from_utf8 (E0: A0-BF, ED: 80-9F,
otherwise 80-BF). -/
def utf8Lead3Snd (b b1 : Nat) : Bool :=
  if b = 0xE0 then 0xA0 ≤ b1 && b1 ≤ 0xBF
  else if b = 0xED then 0x80 ≤ b1 && b1 ≤ 0x9F
  else utf8Cont b1

/-- Allowed second byte after a 4-byte leading byte (F0: 90-BF, F4: 80-8F,
otherwise 80-BF). -/
def utf8Lead4Snd (b b1 : Nat) : Bool :=
  if b = 0xF0 then 0x90 ≤ b1 && b1 ≤ 0xBF
  else if b = 0xF4 then 0x80 ≤ b1 && b1 ≤ 0x8F
  else utf8Cont b1

/-- Embedding of str::from_utf8 validity on a byte sequence (the check
performed by read_fixed_portion_hello_message on the token bytes). -/
def validUtf8 : List Nat → Bool
  | [] => true
  | b :: rest =>
    if b < 0x80 then validUtf8 rest
    else if b < 0xC2 then false
    else if b ≤ 0xDF then
      match rest with
      | b1 :: rest1 => utf8Cont b1 && validUtf8 rest1
      | [] => false
    else if b ≤ 0xEF then
      match rest with
      | b1 :: b2 :: rest2 => utf8Lead3Snd b b1 && utf8Cont b2 && validUtf8 rest2
      | _ => false
    else if b ≤ 0xF4 then
      match rest with
      | b1 :: b2 :: b3 :: rest3 =>
        utf8Lead4Snd b b1 && utf8Cont b2 && utf8Cont b3 && validUtf8 rest3
      | _ => false
    else false

/-- Embedding of write_hello_message (protocol.rs): version 1 big-endian,
then the raw token bytes, then the host-name length as a truncating u16
big-endian, then the host-name bytes.  In a pure model the underlying
stream never fails, so the function returns the bytes written. -/
def write_hello_message (token : List Nat) (host : List Nat) : List Nat :=
  u16BeBytes 1 ++ token ++ u16BeBytes (host.length % 65536) ++ host

/-- Embedding of the struct ProxyConnectionHelloFixed (protocol.rs); the
token is kept as its byte sequence. -/
structure ProxyConnectionHelloFixed where
  version : Nat
  inner_auth_token : List Nat
  host_len : Nat
  deriving DecidableEq, Repr

/-- Embedding of read_fixed_portion_hello_message (protocol.rs): read
exactly 2 + AUTH_TOKEN_LENGTH + 2 = 84 bytes, parse the version, validate
the token bytes as UTF-8, parse the host length, and reject host lengths
above 1024. -/
def read_fixed_portion_hello_message (stream : List Nat) :
    Except ProtoError (ProxyConnectionHelloFixed × List Nat) :=
  if stream.length < 2 + AUTH_TOKEN_LENGTH + 2 then .error .eof
  else
    let buf := stream.take (2 + AUTH_TOKEN_LENGTH + 2)
    let version := beU16 (buf.take 2)
    let auth_token_bytes := (buf.drop 2).take AUTH_TOKEN_LENGTH
    if validUtf8 auth_token_bytes then
      let host_len := beU16 (buf.drop (2 + AUTH_TOKEN_LENGTH))
      if host_len > 1024 then .error .invalidHostLength
      else
        .ok ({ version := version, inner_auth_token := auth_token_bytes,
               host_len := host_len },
             stream.drop (2 + AUTH_TOKEN_LENGTH + 2))
    else .error .badUtf8

/-! Reverse-connection worker, from crates/client/src/proxy_client.rs.

The worker is embedded as a deterministic function of an environment that
fixes the outcome of each I/O action (the results of the dial/auth
attempts, of the single post-auth read, and of the local connect/write);
the function returns the ordered trace of observable actions the worker
performs together with how it terminates. -/

/-- Exponential backoff state.  Modelled from the spec: the backoff crate
is a dependency whose source is not under src; per the spec the policy is
exponential with the crate's default initial interval (500 ms) and
multiplier (1.5), each sleep drawn from the current interval which is then
capped at max_interval, giving up only once max_elapsed_time is exceeded.
Randomized jitter is omitted.  Durations are in milliseconds. -/
structure ExponentialBackoff where
  current_interval : Nat
  max_interval : Nat
  max_elapsed_time : Option Nat
  elapsed_ms : Nat
  deriving DecidableEq, Repr

/-- Advance the backoff state after handing out one interval: the interval
grows by the multiplier 1.5 and is capped at max_interval; the elapsed
clock advances by the interval slept. -/
def ExponentialBackoff.step (b : ExponentialBackoff) : ExponentialBackoff :=
  { b with
    current_interval := min (b.current_interval * 3 / 2) b.max_interval,
    elapsed_ms := b.elapsed_ms + b.current_interval }

/-- next_backoff: none once the elapsed clock passes max_elapsed_time (when
one is set), otherwise the current interval together with the stepped
state. -/
def ExponentialBackoff.next_backoff (b : ExponentialBackoff) :
    Option (Nat × ExponentialBackoff) :=
  match b.max_elapsed_time with
  | some m => if b.elapsed_ms > m then none else some (b.current_interval, b.step)
  | none => some (b.current_interval, b.step)

/-- The backoff value constructed at the top of run_proxy_connection:
max_interval 4 s, max_elapsed_time None, remaining fields default. -/
def workerBackoff : ExponentialBackoff :=
  { current_interval := 500, max_interval := 4000,
    max_elapsed_time := none, elapsed_ms := 0 }

/-- Modelled from the spec: ProxyConnectionAckMessage is referenced by
get_ready_connection but its definition is not under src; per the spec the
server answers the hello with AuthOk (accepted) or AuthFailed. -/
inductive AckMessage where
  | ok
  | failed
  deriving DecidableEq, Repr

/-- Outcome of one dial/authenticate attempt, as fixed by the environment:
either some I/O step failed (TCP connect, TLS handshake, hello write or
ack read), or an ack message was received. -/
inductive DialOutcome where
  | ioErr
  | ack (m : AckMessage)
  deriving DecidableEq, Repr

/-- Observable actions of a worker, in the order it performs them. -/
inductive WorkerEvent where
  | dialAttempt
  | endServiceSignal
  | sleep (ms : Nat)
  | proxyWrite (bytes : List Nat)
  | replenishSignal
  | localConnectAttempt
  | localWrite (bytes : List Nat)
  | bridge
  deriving DecidableEq, Repr

/-- Embedding of get_ready_connection (proxy_client.rs): dial TCP, set
nodelay, TLS-handshake, write the hello, read the ack.  Returns the events
performed and whether a ready stream was obtained.  On AckMessage.failed
the function sends one unit on the end-service channel and returns an
error; it does not touch any cancellation token. -/
def get_ready_connection : DialOutcome → List WorkerEvent × Bool
  | .ioErr => ([.dialAttempt], false)
  | .ack .ok => ([.dialAttempt], true)
  | .ack .failed => ([.dialAttempt, .endServiceSignal], false)

/-- Embedding of the retry loop at the top of run_proxy_connection: loop
get_ready_connection until it succeeds, sleeping per backoff.next_backoff
after every failure (when it yields an interval).  The environment
supplies a finite list of attempt outcomes; if they are exhausted before a
stream is ready the loop is still running (Bool result false). -/
def dialLoop : List DialOutcome → ExponentialBackoff →
    List WorkerEvent × Bool × ExponentialBackoff
  | [], b => ([], false, b)
  | o :: rest, b =>
    let r := get_ready_connection o
    if r.2 then (r.1, true, b)
    else
      match b.next_backoff with
      | some (d, b2) =>
        let r2 := dialLoop rest b2
        (r.1 ++ WorkerEvent.sleep d :: r2.1, r2.2.1, r2.2.2)
      | none =>
        let r2 := dialLoop rest b
        (r.1 ++ r2.1, r2.2.1, r2.2.2)

/-- Outcome of the single post-auth read, racing the cancellation token:
the token fired first, the read failed, or the read returned the given
bytes (the empty list models a read of 0 bytes, i.e. the peer closed). -/
inductive ReadOutcome where
  | cancelled
  | ioErr
  | data (bytes : List Nat)
  deriving DecidableEq, Repr

/-- Bytes carried by a data outcome. -/
def ReadOutcome.bytes : ReadOutcome → List Nat
  | .data bs => bs
  | _ => []

/-- Outcome of the local hand-off I/O fixed by the environment: the
loopback TCP connect fails, the first write to it fails, or both
succeed. -/
inductive LocalOutcome where
  | connErr
  | writeErr
  | ok
  deriving DecidableEq, Repr

/-- How run_proxy_connection terminates in a given environment. -/
inductive WorkerResult where
  | stillDialing
  | cancelledOk
  | pendingErr
  | localErr
  | finished
  deriving DecidableEq, Repr

/-- Environment of one worker: outcomes of its dial attempts, of its
post-auth read, and of the local hand-off. -/
structure WorkerEnv where
  dials : List DialOutcome
  pendingRead : ReadOutcome
  localConn : LocalOutcome
  deriving DecidableEq, Repr

/-- Embedding of run_proxy_connection (proxy_client.rs).  After the dial
loop delivers a ready (authenticated) stream, the worker awaits either
cancellation (returning Ok with no further action) or the first read on
the proxy stream.  Once the read completes — with data, an error, or 0
bytes — it first sends one unit on the replenishment channel, then
propagates a read error, treats 0 bytes as a closed connection, and
otherwise connects to the local service, writes the bytes read, and
bridges the two streams.  It performs no write to the proxy stream after
authentication. -/
def run_proxy_connection (env : WorkerEnv) : List WorkerEvent × WorkerResult :=
  let dl := dialLoop env.dials workerBackoff
  if dl.2.1 then
    match env.pendingRead with
    | .cancelled => (dl.1, .cancelledOk)
    | .ioErr => (dl.1 ++ [.replenishSignal], .pendingErr)
    | .data [] => (dl.1 ++ [.replenishSignal], .pendingErr)
    | .data bytes =>
      match env.localConn with
      | .connErr => (dl.1 ++ [.replenishSignal, .localConnectAttempt], .localErr)
      | .writeErr => (dl.1 ++ [.replenishSignal, .localConnectAttempt], .localErr)
      | .ok =>
        (dl.1 ++ [.replenishSignal, .localConnectAttempt,
                  .localWrite bytes, .bridge], .finished)
  else (dl.1, .stillDialing)

/-- Occurrences of an event in a trace. -/
def countOcc (e : WorkerEvent) : List WorkerEvent → Nat
  | [] => 0
  | x :: xs => (if x = e then 1 else 0) + countOcc e xs

/-- Recognizes a write to the proxy stream. -/
def isProxyWrite : WorkerEvent → Bool
  | .proxyWrite _ => true
  | _ => false

/-- Recognizes the local loopback connect. -/
def isLocalConnect : WorkerEvent → Bool
  | .localConnectAttempt => true
  | _ => false

/-- Sleep duration of an event (0 for non-sleep events). -/
def sleepMs : WorkerEvent → Nat
  | .sleep ms => ms
  | _ => 0

/-- Prefix of a trace strictly before the first event satisfying p. -/
def prefixBefore (p : WorkerEvent → Bool) : List WorkerEvent → List WorkerEvent
  | [] => []
  | x :: xs => if p x then [] else x :: prefixBefore p xs

/-! Pool supervisor connection tracking, from start_service
(proxy_client.rs). -/

def MAX_READY_CONNECTIONS : Nat := 4

/-- State of the bounded guard queue in start_service together with the
set of workers whose cancellation token has been cancelled.  The queue
holds, oldest first, the identities of the workers whose drop guard it
stores; dropping a guard cancels that worker's token. -/
structure ConnectionsQueue where
  queue : List Nat
  cancelled : List Nat
  deriving DecidableEq, Repr

/-- Embedding of the per-spawn tracking step in start_service: with
connections a ConcurrentQueue bounded at MAX_READY_CONNECTIONS, the code
runs, after spawning the worker: if the queue is full, pop (the popped
guard is dropped, cancelling the oldest tracked worker); then push the new
worker's drop guard (a push refused by a full queue would drop, hence
cancel, the new guard). -/
def trackConnection (s : ConnectionsQueue) (id : Nat) : ConnectionsQueue :=
  let s1 :=
    if s.queue.length = MAX_READY_CONNECTIONS then
      match s.queue with
      | old :: rest => { queue := rest, cancelled := s.cancelled ++ [old] }
      | [] => s
    else s
  if s1.queue.length < MAX_READY_CONNECTIONS then
    { s1 with queue := s1.queue ++ [id] }
  else
    { s1 with cancelled := s1.cancelled ++ [id] }

/-- Backoff state after n failed attempts, starting from the value
constructed in run_proxy_connection. -/
def backoffAfter : Nat → ExponentialBackoff
  | 0 => workerBackoff
  | n + 1 => (backoffAfter n).step

/-- Environment in which the single dial attempt authenticates and the
post-auth read then fails with an I/O error. -/
def errEnv : WorkerEnv :=
  { dials := [DialOutcome.ack AckMessage.ok],
    pendingRead := ReadOutcome.ioErr,
    localConn := LocalOutcome.ok }

/-- Environment in which the worker authenticates and the server then
sends exactly a Ping frame (bytes 0x33 0x33) on the stream. -/
def pingEnv : WorkerEnv :=
  { dials := [DialOutcome.ack AckMessage.ok],
    pendingRead := ReadOutcome.data [0x33, 0x33],
    localConn := LocalOutcome.ok }

/-- Environment in which the worker authenticates, receives activation
bytes, and the local hand-off succeeds. -/
def activeEnv : WorkerEnv :=
  { dials := [DialOutcome.ack AckMessage.ok],
    pendingRead := ReadOutcome.data [7],
    localConn := LocalOutcome.ok }

/-- Environment in which the worker authenticates and receives activation
bytes, but the connect to the local loopback service then fails. -/
def failEnv : WorkerEnv :=
  { dials := [DialOutcome.ack AckMessage.ok],
    pendingRead := ReadOutcome.data [7],
    localConn := LocalOutcome.connErr }

/-! Helper lemmas -/

lemma take_append_len (n : Nat) (l1 l2 : List Nat) (h : l1.length = n) :
    (l1 ++ l2).take n = l1 := by
  subst h
  induction l1 with
  | nil => rfl
  | cons a t ih => simp [ih]

lemma drop_append_len (n : Nat) (l1 l2 : List Nat) (h : l1.length = n) :
    (l1 ++ l2).drop n = l2 := by
  subst h
  induction l1 with
  | nil => rfl
  | cons a t ih => simp [ih]

lemma beU16_u16BeBytes (n : Nat) (h : n < 65536) : beU16 (u16BeBytes n) = n := by
  simp only [beU16, u16BeBytes]
  omega

/-! Claims about the wire codec -/

/-- C7: for every message code in the closed set, writing it with
write_proxy_message and reading the resulting stream with
read_proxy_message yields the same message back, consuming exactly the two
code bytes. -/
theorem proxy_message_roundtrip (m : ProxyConnectionMessage) (rest : List Nat) :
    read_proxy_message (write_proxy_message m ++ rest) = Except.ok (m, rest) := by
  cases m <;> rfl

/-- C8: read_proxy_message applied to any 2-byte value that is not in the
closed set of declared message codes fails with the unknown-frame error
and never returns a message. -/
theorem unknown_code_rejected (c : Nat) (rest : List Nat)
    (hlt : c < 65536) (hmem : c ∉ proxyMessageCodes) :
    read_proxy_message (u16BeBytes c ++ rest) = Except.error ProtoError.unknownFrame := by
  simp only [proxyMessageCodes, List.mem_cons, List.mem_singleton, not_or] at hmem
  obtain ⟨h1, h2, h3, h4, h5, -⟩ := hmem
  have hc : beU16 [c / 256 % 256, c % 256] = c := by
    simp only [beU16]
    omega
  simp [u16BeBytes, read_proxy_message, hc, ProxyConnectionMessage.tryFrom,
    h1, h2, h3, h4, h5]

/-- Witness for C8 at the concrete out-of-set code 0x5558. -/
theorem unknown_code_rejected_witness :
    read_proxy_message (u16BeBytes 0x5558 ++ []) = Except.error ProtoError.unknownFrame :=
  unknown_code_rejected 0x5558 [] (by decide) (by decide)

/-- C4 (amended): the closed set of proxy message codes has exactly one
activation code, Data = 0x5555; read_proxy_message accepts it and returns
Data, while the 2-byte values 0x5556 and 0x5557 are not declared codes. -/
theorem data_codes_closed_set :
    read_proxy_message [0x55, 0x55] = Except.ok (ProxyConnectionMessage.Data, [])
    ∧ ProxyConnectionMessage.tryFrom 0x5555 = some ProxyConnectionMessage.Data
    ∧ ProxyConnectionMessage.tryFrom 0x5556 = none
    ∧ ProxyConnectionMessage.tryFrom 0x5557 = none :=
  ⟨rfl, rfl, rfl, rfl⟩

/-- Counterexample to C4 as stated: reading the 2-byte values 0x5556
(DataVscode per the claim) and 0x5557 (DataSsh per the claim) does not
succeed; both are rejected as unknown frames. -/
theorem vscode_ssh_codes_rejected :
    read_proxy_message [0x55, 0x56] = Except.error ProtoError.unknownFrame
    ∧ read_proxy_message [0x55, 0x57] = Except.error ProtoError.unknownFrame :=
  ⟨rfl, rfl⟩

/-- C3 (amended): write_hello_message writes the 2-byte big-endian version
1, the token bytes, a 2-byte big-endian host length and the host bytes —
84 + host.length bytes in total for an 80-byte token;
read_fixed_portion_hello_message consumes exactly 84 bytes, recovering the
version, token and host length when the token bytes are valid UTF-8 and
the host length is at most 1024; it fails with the invalid-host-length
error when the parsed host length exceeds 1024, and with the UTF-8 error
when the token bytes are not valid UTF-8. -/
theorem hello_frame_characterization (token host rest : List Nat)
    (htok : token.length = AUTH_TOKEN_LENGTH) :
    (write_hello_message token host).length = 84 + host.length
    ∧ (validUtf8 token = true → host.length ≤ 1024 →
        read_fixed_portion_hello_message (write_hello_message token host ++ rest)
          = Except.ok ({ version := 1, inner_auth_token := token,
                         host_len := host.length }, host ++ rest))
    ∧ (validUtf8 token = true → 1024 < host.length → host.length < 65536 →
        read_fixed_portion_hello_message (write_hello_message token host ++ rest)
          = Except.error ProtoError.invalidHostLength)
    ∧ (validUtf8 token = false →
        read_fixed_portion_hello_message (write_hello_message token host ++ rest)
          = Except.error ProtoError.badUtf8) := by
  have htok' : token.length = 80 := htok
  have hmod : host.length % 65536 < 65536 := Nat.mod_lt _ (by omega)
  have hsplit : write_hello_message token host ++ rest
      = (u16BeBytes 1 ++ token ++ u16BeBytes (host.length % 65536)) ++ (host ++ rest) := by
    simp [write_hello_message]
  have hlenA : (u16BeBytes 1 ++ token ++ u16BeBytes (host.length % 65536)).length = 84 := by
    simp [u16BeBytes, htok']
  have hlen : (write_hello_message token host).length = 84 + host.length := by
    simp [write_hello_message, u16BeBytes, htok']
    omega
  have hone : u16BeBytes 1 = [0, 1] := rfl
  have hbuf : ((u16BeBytes 1 ++ token ++ u16BeBytes (host.length % 65536))
        ++ (host ++ rest)).take (2 + AUTH_TOKEN_LENGTH + 2)
      = u16BeBytes 1 ++ token ++ u16BeBytes (host.length % 65536) :=
    take_append_len _ _ _ hlenA
  have hrest : ((u16BeBytes 1 ++ token ++ u16BeBytes (host.length % 65536))
        ++ (host ++ rest)).drop (2 + AUTH_TOKEN_LENGTH + 2) = host ++ rest :=
    drop_append_len _ _ _ hlenA
  have hver : (u16BeBytes 1 ++ token ++ u16BeBytes (host.length % 65536)).take 2
      = [0, 1] := by
    rw [hone, List.append_assoc]
    exact take_append_len 2 [0, 1] _ rfl
  have htokbytes : ((u16BeBytes 1 ++ token ++ u16BeBytes (host.length % 65536)).drop 2).take
      AUTH_TOKEN_LENGTH = token := by
    rw [hone, List.append_assoc, drop_append_len 2 [0, 1] _ rfl]
    exact take_append_len _ _ _ htok'
  have hhl : (u16BeBytes 1 ++ token ++ u16BeBytes (host.length % 65536)).drop
      (2 + AUTH_TOKEN_LENGTH) = u16BeBytes (host.length % 65536) := by
    exact drop_append_len _ _ _ (by simp [u16BeBytes, htok', AUTH_TOKEN_LENGTH])
  have hnotlt : ¬ ((u16BeBytes 1 ++ token ++ u16BeBytes (host.length % 65536))
        ++ (host ++ rest)).length < 2 + AUTH_TOKEN_LENGTH + 2 := by
    simp only [List.length_append, hlenA, AUTH_TOKEN_LENGTH]
    omega
  refine ⟨hlen, ?_, ?_, ?_⟩
  · intro hutf hhost
    rw [hsplit]
    rw [read_fixed_portion_hello_message, if_neg hnotlt]
    simp only [hbuf, hver, htokbytes, hhl, hutf, if_true, hrest]
    rw [beU16_u16BeBytes _ hmod]
    have hsmall : host.length % 65536 = host.length := Nat.mod_eq_of_lt (by omega)
    rw [hsmall, if_neg (by omega)]
    simp [beU16]
  · intro hutf hbig hfit
    rw [hsplit]
    rw [read_fixed_portion_hello_message, if_neg hnotlt]
    simp only [hbuf, hver, htokbytes, hhl, hutf, if_true, hrest]
    rw [beU16_u16BeBytes _ hmod]
    have hsmall : host.length % 65536 = host.length := Nat.mod_eq_of_lt hfit
    rw [hsmall, if_pos (by omega)]
  · intro hutf
    rw [hsplit]
    rw [read_fixed_portion_hello_message, if_neg hnotlt]
    simp only [hbuf, htokbytes, hutf]
    simp

/-- Witness for C3 (amended): a concrete 80-byte ASCII token with a 2-byte
host round-trips through write and read, a 1025-byte host is rejected for
its length, and a concrete non-UTF-8 token is rejected. -/
theorem hello_frame_characterization_witness :
    read_fixed_portion_hello_message
        (write_hello_message (List.replicate 80 97) [104, 105] ++ [])
      = Except.ok ({ version := 1, inner_auth_token := List.replicate 80 97,
                     host_len := 2 }, [104, 105] ++ [])
    ∧ read_fixed_portion_hello_message
        (write_hello_message (List.replicate 80 97) (List.replicate 1025 104) ++ [])
      = Except.error ProtoError.invalidHostLength
    ∧ read_fixed_portion_hello_message
        (write_hello_message (255 :: List.replicate 79 97) [] ++ [])
      = Except.error ProtoError.badUtf8 :=
  ⟨(hello_frame_characterization (List.replicate 80 97) [104, 105] []
      (by decide)).2.1 (by decide) (by decide),
   (hello_frame_characterization (List.replicate 80 97) (List.replicate 1025 104) []
      (by decide)).2.2.1 (by decide) (by rw [List.length_replicate]; omega)
      (by rw [List.length_replicate]; omega),
   (hello_frame_characterization (255 :: List.replicate 79 97) [] []
      (by decide)).2.2.2 (by decide)⟩

/-- Counterexample to C3 as stated: the hello written for a concrete
80-byte token with an empty host name is 84 bytes, not 82, and reading a
stream that is exactly the claimed 82-byte hello (version 1 followed by
the 80 token bytes) fails for want of bytes instead of succeeding. -/
theorem hello_not_82_bytes :
    (write_hello_message (List.replicate 80 97) []).length = 84
    ∧ read_fixed_portion_hello_message (u16BeBytes 1 ++ List.replicate 80 97)
        = Except.error ProtoError.eof :=
  ⟨rfl, rfl⟩

/-! Helper lemmas about the worker trace -/

lemma countOcc_append (e : WorkerEvent) (l1 l2 : List WorkerEvent) :
    countOcc e (l1 ++ l2) = countOcc e l1 + countOcc e l2 := by
  induction l1 with
  | nil => simp [countOcc]
  | cons a t ih =>
    show (if a = e then 1 else 0) + countOcc e (t ++ l2)
      = (if a = e then 1 else 0) + countOcc e t + countOcc e l2
    rw [ih]
    omega

lemma countOcc_eq_zero (e : WorkerEvent) (l : List WorkerEvent) (h : e ∉ l) :
    countOcc e l = 0 := by
  induction l with
  | nil => rfl
  | cons a t ih =>
    simp only [List.mem_cons, not_or] at h
    rw [countOcc, if_neg (fun hh => h.1 hh.symm), ih h.2]

lemma next_backoff_some (b : ExponentialBackoff) (d : Nat) (b2 : ExponentialBackoff)
    (h : b.next_backoff = some (d, b2)) : d = b.current_interval ∧ b2 = b.step := by
  rcases hm : b.max_elapsed_time with _ | m <;>
    simp only [ExponentialBackoff.next_backoff, hm] at h
  · simp only [Option.some.injEq, Prod.mk.injEq] at h
    exact ⟨h.1.symm, h.2.symm⟩
  · split at h
    · exact absurd h (by simp)
    · simp only [Option.some.injEq, Prod.mk.injEq] at h
      exact ⟨h.1.symm, h.2.symm⟩

lemma dialLoop_mem (dials : List DialOutcome) :
    ∀ (b : ExponentialBackoff), ∀ e ∈ (dialLoop dials b).1,
      e = WorkerEvent.dialAttempt ∨ e = WorkerEvent.endServiceSignal
        ∨ ∃ d, e = WorkerEvent.sleep d := by
  induction dials with
  | nil =>
    intro b e he
    simp [dialLoop] at he
  | cons o rest ih =>
    intro b e he
    rcases o with _ | m
    · rcases hnb : b.next_backoff with _ | ⟨d, b2⟩ <;>
        simp [dialLoop, get_ready_connection, hnb] at he
      · rcases he with he | he
        · exact Or.inl he
        · exact ih b e he
      · rcases he with he | he | he
        · exact Or.inl he
        · exact Or.inr (Or.inr ⟨d, he⟩)
        · exact ih b2 e he
    · rcases m with _ | _
      · simp [dialLoop, get_ready_connection] at he
        exact Or.inl he
      · rcases hnb : b.next_backoff with _ | ⟨d, b2⟩ <;>
          simp [dialLoop, get_ready_connection, hnb] at he
        · rcases he with he | he | he
          · exact Or.inl he
          · exact Or.inr (Or.inl he)
          · exact ih b e he
        · rcases he with he | he | he | he
          · exact Or.inl he
          · exact Or.inr (Or.inl he)
          · exact Or.inr (Or.inr ⟨d, he⟩)
          · exact ih b2 e he

lemma dialLoop_not_mem_replenish (dials : List DialOutcome) (b : ExponentialBackoff) :
    WorkerEvent.replenishSignal ∉ (dialLoop dials b).1 := by
  intro hmem
  rcases dialLoop_mem dials b _ hmem with h | h | ⟨d, h⟩ <;> cases h

lemma dialLoop_countOcc_replenish (dials : List DialOutcome) (b : ExponentialBackoff) :
    countOcc WorkerEvent.replenishSignal (dialLoop dials b).1 = 0 :=
  countOcc_eq_zero _ _ (dialLoop_not_mem_replenish dials b)

lemma dialLoop_isLocalConnect_false (dials : List DialOutcome) (b : ExponentialBackoff) :
    ∀ e ∈ (dialLoop dials b).1, isLocalConnect e = false := by
  intro e he
  rcases dialLoop_mem dials b e he with h | h | ⟨d, h⟩ <;> subst h <;> rfl

lemma dialLoop_not_mem_localConnect (dials : List DialOutcome) (b : ExponentialBackoff) :
    WorkerEvent.localConnectAttempt ∉ (dialLoop dials b).1 := by
  intro hmem
  have := dialLoop_isLocalConnect_false dials b _ hmem
  simp [isLocalConnect] at this

lemma dialLoop_isProxyWrite_false (dials : List DialOutcome) (b : ExponentialBackoff) :
    ∀ e ∈ (dialLoop dials b).1, isProxyWrite e = false := by
  intro e he
  rcases dialLoop_mem dials b e he with h | h | ⟨d, h⟩ <;> subst h <;> rfl

lemma dialLoop_filter_proxyWrite (dials : List DialOutcome) (b : ExponentialBackoff) :
    List.filter isProxyWrite (dialLoop dials b).1 = [] := by
  rw [List.filter_eq_nil_iff]
  intro e he
  rw [dialLoop_isProxyWrite_false dials b e he]
  simp

lemma prefixBefore_append (p : WorkerEvent → Bool) (l1 l2 : List WorkerEvent)
    (h : ∀ e ∈ l1, p e = false) :
    prefixBefore p (l1 ++ l2) = l1 ++ prefixBefore p l2 := by
  induction l1 with
  | nil => rfl
  | cons a t ih =>
    have ha : p a = false := h a (by simp)
    simp only [List.cons_append, prefixBefore, ha, Bool.false_eq_true, if_false,
      List.cons.injEq, true_and]
    exact ih (fun e he => h e (by simp [he]))

lemma step_max_interval (b : ExponentialBackoff) :
    b.step.max_interval = b.max_interval := rfl

lemma step_max_elapsed (b : ExponentialBackoff) :
    b.step.max_elapsed_time = b.max_elapsed_time := rfl

lemma step_current_le (b : ExponentialBackoff) :
    b.step.current_interval ≤ b.max_interval :=
  Nat.min_le_right _ _

lemma backoffAfter_max_interval (n : Nat) : (backoffAfter n).max_interval = 4000 := by
  induction n with
  | zero => rfl
  | succ n ih => rw [backoffAfter, step_max_interval, ih]

lemma backoffAfter_max_elapsed (n : Nat) : (backoffAfter n).max_elapsed_time = none := by
  induction n with
  | zero => rfl
  | succ n ih => rw [backoffAfter, step_max_elapsed, ih]

lemma backoffAfter_current_le (n : Nat) : (backoffAfter n).current_interval ≤ 4000 := by
  cases n with
  | zero => decide
  | succ n =>
    rw [backoffAfter, ← backoffAfter_max_interval n]
    exact step_current_le _

lemma dialLoop_sleep_le (dials : List DialOutcome) :
    ∀ (b : ExponentialBackoff), b.current_interval ≤ b.max_interval →
      ∀ e ∈ (dialLoop dials b).1, sleepMs e ≤ b.max_interval := by
  induction dials with
  | nil =>
    intro b hb e he
    simp [dialLoop] at he
  | cons o rest ih =>
    intro b hb e he
    have hstep : ∀ e ∈ (dialLoop rest b.step).1, sleepMs e ≤ b.max_interval := by
      intro x hx
      have := ih b.step (by rw [step_max_interval]; exact step_current_le b) x hx
      rwa [step_max_interval] at this
    rcases o with _ | m
    · rcases hnb : b.next_backoff with _ | ⟨d, b2⟩ <;>
        simp [dialLoop, get_ready_connection, hnb] at he
      · rcases he with he | he
        · subst he; exact Nat.zero_le _
        · exact ih b hb e he
      · obtain ⟨hd, hb2⟩ := next_backoff_some b d b2 hnb
        subst hd; subst hb2
        rcases he with he | he | he
        · subst he; exact Nat.zero_le _
        · subst he; exact hb
        · exact hstep e he
    · rcases m with _ | _
      · simp [dialLoop, get_ready_connection] at he
        subst he; exact Nat.zero_le _
      · rcases hnb : b.next_backoff with _ | ⟨d, b2⟩ <;>
          simp [dialLoop, get_ready_connection, hnb] at he
        · rcases he with he | he | he
          · subst he; exact Nat.zero_le _
          · subst he; exact Nat.zero_le _
          · exact ih b hb e he
        · obtain ⟨hd, hb2⟩ := next_backoff_some b d b2 hnb
          subst hd; subst hb2
          rcases he with he | he | he | he
          · subst he; exact Nat.zero_le _
          · subst he; exact Nat.zero_le _
          · subst he; exact hb
          · exact hstep e he

/-! Claims about the worker and the pool supervisor -/

/-- C9: the retry loop's backoff is configured with max_interval = 4 s and
max_elapsed_time = None; from that configuration next_backoff always
yields an interval (the loop never gives up on transient failures) and
every interval — hence every sleep the dial loop performs — is at most
4000 ms. -/
theorem backoff_capped_never_gives_up :
    workerBackoff.max_interval = 4000
    ∧ workerBackoff.max_elapsed_time = none
    ∧ (∀ n : Nat, (backoffAfter n).next_backoff
        = some ((backoffAfter n).current_interval, (backoffAfter n).step)
        ∧ (backoffAfter n).current_interval ≤ 4000)
    ∧ (∀ (dials : List DialOutcome), ∀ e ∈ (dialLoop dials workerBackoff).1,
        sleepMs e ≤ 4000) := by
  refine ⟨rfl, rfl, ?_, ?_⟩
  · intro n
    refine ⟨?_, backoffAfter_current_le n⟩
    rw [ExponentialBackoff.next_backoff, backoffAfter_max_elapsed n]
  · intro dials e he
    exact dialLoop_sleep_le dials workerBackoff (by decide) e he

/-- Witness for C9 on a concrete failing dial sequence: the sleep after
the first failed attempt is 500 ms, within the 4000 ms bound. -/
theorem backoff_capped_never_gives_up_witness :
    sleepMs (WorkerEvent.sleep 500) ≤ 4000 :=
  backoff_capped_never_gives_up.2.2.2 [DialOutcome.ioErr, DialOutcome.ack AckMessage.ok]
    (WorkerEvent.sleep 500) (by decide)

/-- C1 (amended): a worker whose hello is answered with AuthFailed sends
one unit on the pool's end-service channel (which makes the supervisor's
select terminate and stop spawning) but does not touch any cancellation
token and does not terminate itself: it treats the failure like any other
error, sleeps per backoff, and continues its dial/hello retry loop — so
further dial and hello attempts by that worker do occur. -/
theorem auth_failed_signals_and_retries (rest : List DialOutcome)
    (b : ExponentialBackoff) (d : Nat) (b2 : ExponentialBackoff)
    (h : b.next_backoff = some (d, b2)) :
    (dialLoop (DialOutcome.ack AckMessage.failed :: rest) b).1
      = WorkerEvent.dialAttempt :: WorkerEvent.endServiceSignal
          :: WorkerEvent.sleep d :: (dialLoop rest b2).1
    ∧ (dialLoop (DialOutcome.ack AckMessage.failed :: rest) b).2.1
      = (dialLoop rest b2).2.1 := by
  constructor <;> simp [dialLoop, get_ready_connection, h]

/-- Witness for C1 (amended) at a concrete dial sequence and the worker's
initial backoff state. -/
theorem auth_failed_signals_and_retries_witness :
    (dialLoop [DialOutcome.ack AckMessage.failed, DialOutcome.ack AckMessage.ok]
        workerBackoff).1
      = WorkerEvent.dialAttempt :: WorkerEvent.endServiceSignal
          :: WorkerEvent.sleep 500
          :: (dialLoop [DialOutcome.ack AckMessage.ok] workerBackoff.step).1
    ∧ (dialLoop [DialOutcome.ack AckMessage.failed, DialOutcome.ack AckMessage.ok]
        workerBackoff).2.1
      = (dialLoop [DialOutcome.ack AckMessage.ok] workerBackoff.step).2.1 :=
  auth_failed_signals_and_retries [DialOutcome.ack AckMessage.ok] workerBackoff
    500 workerBackoff.step rfl

/-- Counterexample to C1 as stated: in a run where the first hello is
answered with AuthFailed and the next attempt succeeds, the worker's
trace contains a second dial/hello attempt after the end-service signal
that reports the failure — an attempt the claim says must not happen —
and contains no cancellation of the pool's token by the worker. -/
theorem dial_attempt_after_auth_failed :
    (dialLoop [DialOutcome.ack AckMessage.failed, DialOutcome.ack AckMessage.ok]
        workerBackoff).1
      = [WorkerEvent.dialAttempt, WorkerEvent.endServiceSignal,
         WorkerEvent.sleep 500, WorkerEvent.dialAttempt]
    ∧ countOcc WorkerEvent.dialAttempt
        (dialLoop [DialOutcome.ack AckMessage.failed, DialOutcome.ack AckMessage.ok]
          workerBackoff).1 = 2 :=
  ⟨rfl, rfl⟩

/-- C5 (amended): a worker that never obtains a ready connection, or whose
pending wait ends because the pool's cancellation token fired, emits no
replenishment signal; a worker whose pending read completes — with data,
with an I/O error, or with the connection closing — emits exactly one
replenishment signal, even when it never becomes active. -/
theorem replenish_count_by_result (env : WorkerEnv) :
    countOcc WorkerEvent.replenishSignal (run_proxy_connection env).1 =
      if (run_proxy_connection env).2 = WorkerResult.stillDialing
          ∨ (run_proxy_connection env).2 = WorkerResult.cancelledOk
      then 0 else 1 := by
  have hzero : countOcc WorkerEvent.replenishSignal
      (dialLoop env.dials workerBackoff).1 = 0 :=
    dialLoop_countOcc_replenish env.dials workerBackoff
  unfold run_proxy_connection
  cases hb : (dialLoop env.dials workerBackoff).2.1 with
  | false => simp [hb, hzero]
  | true =>
    cases hr : env.pendingRead with
    | cancelled => simp [hb, hr, hzero]
    | ioErr => simp [hb, hr, countOcc_append, hzero, countOcc]
    | data bytes =>
      cases bytes with
      | nil => simp [hb, hr, countOcc_append, hzero, countOcc]
      | cons b0 bs =>
        cases hl : env.localConn with
        | connErr => simp [hb, hr, hl, countOcc_append, hzero, countOcc]
        | writeErr => simp [hb, hr, hl, countOcc_append, hzero, countOcc]
        | ok => simp [hb, hr, hl, countOcc_append, hzero, countOcc]

/-- Counterexample to C5 as stated: a worker whose pending phase ends in
an I/O error — which therefore never becomes active — still emits one
replenishment signal, because run_proxy_connection sends on the
replenishment channel before inspecting the read result. -/
theorem replenish_sent_without_activation :
    run_proxy_connection errEnv
      = ([WorkerEvent.dialAttempt, WorkerEvent.replenishSignal],
         WorkerResult.pendingErr)
    ∧ countOcc WorkerEvent.replenishSignal (run_proxy_connection errEnv).1 = 1 :=
  ⟨rfl, rfl⟩

/-- C2 (amended): after authenticating, a worker performs a single raw
read racing only pool cancellation, with no per-read timeout; it never
parses frames and never writes anything to the proxy stream — in
particular it never answers a Ping frame with a Pong — and whenever it
finishes as active the bytes of that first read were forwarded verbatim
to the local service as activation data. -/
theorem pending_phase_no_proxy_writes (env : WorkerEnv) :
    List.filter isProxyWrite (run_proxy_connection env).1 = []
    ∧ ((run_proxy_connection env).2 = WorkerResult.finished →
        WorkerEvent.localWrite env.pendingRead.bytes ∈ (run_proxy_connection env).1) := by
  have hfil : List.filter isProxyWrite (dialLoop env.dials workerBackoff).1 = [] :=
    dialLoop_filter_proxyWrite env.dials workerBackoff
  unfold run_proxy_connection
  cases hb : (dialLoop env.dials workerBackoff).2.1 with
  | false => simp [hb, hfil]
  | true =>
    cases hr : env.pendingRead with
    | cancelled => simp [hb, hr, hfil]
    | ioErr => simp [hb, hr, hfil, List.filter_append, isProxyWrite]
    | data bytes =>
      cases bytes with
      | nil => simp [hb, hr, hfil, List.filter_append, isProxyWrite]
      | cons b0 bs =>
        cases hl : env.localConn with
        | connErr => simp [hb, hr, hl, hfil, List.filter_append, isProxyWrite]
        | writeErr => simp [hb, hr, hl, hfil, List.filter_append, isProxyWrite]
        | ok =>
          refine ⟨?_, ?_⟩
          · simp [hb, hr, hl, hfil, List.filter_append, isProxyWrite]
          · intro hfin
            simp [hb, hr, hl, ReadOutcome.bytes]

/-- Witness for C2 (amended) at the concrete environment where the server
sends a Ping frame: the worker writes nothing to the proxy stream and
forwards the Ping bytes to the local service. -/
theorem pending_phase_no_proxy_writes_witness :
    List.filter isProxyWrite (run_proxy_connection pingEnv).1 = []
    ∧ WorkerEvent.localWrite (ReadOutcome.bytes pingEnv.pendingRead)
        ∈ (run_proxy_connection pingEnv).1 :=
  ⟨(pending_phase_no_proxy_writes pingEnv).1,
   (pending_phase_no_proxy_writes pingEnv).2 rfl⟩

/-- Counterexample to C2 as stated: on receiving exactly a Ping frame
(bytes 0x33 0x33) while pending, the worker does not answer with a Pong
(its trace contains no write to the proxy stream at all); instead it
treats the two bytes as activation data, forwards them to the local
service, and becomes active. -/
theorem ping_not_answered_with_pong :
    run_proxy_connection pingEnv
      = ([WorkerEvent.dialAttempt, WorkerEvent.replenishSignal,
          WorkerEvent.localConnectAttempt, WorkerEvent.localWrite [0x33, 0x33],
          WorkerEvent.bridge], WorkerResult.finished)
    ∧ List.filter isProxyWrite (run_proxy_connection pingEnv).1 = [] :=
  ⟨rfl, rfl⟩

/-- C6: every worker that opens — or attempts to open — the TCP connection
to the local loopback service has previously emitted exactly one
replenishment signal: in every trace containing the local connect, the
replenishment signal occurs exactly once, and it occurs strictly before
the local connect.  In particular this covers workers whose local connect
or first local write then fails: the signal has already been sent. -/
theorem activation_replenish_order (env : WorkerEnv)
    (hcon : WorkerEvent.localConnectAttempt ∈ (run_proxy_connection env).1) :
    countOcc WorkerEvent.replenishSignal (run_proxy_connection env).1 = 1
    ∧ countOcc WorkerEvent.replenishSignal
        (prefixBefore isLocalConnect (run_proxy_connection env).1) = 1 := by
  have hzero : countOcc WorkerEvent.replenishSignal
      (dialLoop env.dials workerBackoff).1 = 0 :=
    dialLoop_countOcc_replenish env.dials workerBackoff
  have hnl : ∀ e ∈ (dialLoop env.dials workerBackoff).1, isLocalConnect e = false :=
    dialLoop_isLocalConnect_false env.dials workerBackoff
  have hnm : WorkerEvent.localConnectAttempt ∉ (dialLoop env.dials workerBackoff).1 :=
    dialLoop_not_mem_localConnect env.dials workerBackoff
  unfold run_proxy_connection at hcon ⊢
  cases hb : (dialLoop env.dials workerBackoff).2.1 with
  | false =>
    simp [hb] at hcon
    exact absurd hcon hnm
  | true =>
    cases hr : env.pendingRead with
    | cancelled =>
      simp [hb, hr] at hcon
      exact absurd hcon hnm
    | ioErr =>
      simp [hb, hr] at hcon
      exact absurd hcon hnm
    | data bytes =>
      cases bytes with
      | nil =>
        simp [hb, hr] at hcon
        exact absurd hcon hnm
      | cons b0 bs =>
        cases hl : env.localConn with
        | connErr =>
          refine ⟨?_, ?_⟩
          · simp [hb, hr, hl, countOcc_append, hzero, countOcc]
          · simp only [hb, hr, hl, if_true]
            rw [prefixBefore_append _ _ _ hnl]
            simp [prefixBefore, countOcc_append, hzero, countOcc, isLocalConnect]
        | writeErr =>
          refine ⟨?_, ?_⟩
          · simp [hb, hr, hl, countOcc_append, hzero, countOcc]
          · simp only [hb, hr, hl, if_true]
            rw [prefixBefore_append _ _ _ hnl]
            simp [prefixBefore, countOcc_append, hzero, countOcc, isLocalConnect]
        | ok =>
          refine ⟨?_, ?_⟩
          · simp [hb, hr, hl, countOcc_append, hzero, countOcc]
          · simp only [hb, hr, hl, if_true]
            rw [prefixBefore_append _ _ _ hnl]
            simp [prefixBefore, countOcc_append, hzero, countOcc, isLocalConnect]

/-- Witness for C6 at two concrete environments: one where the local
connect fails after activation and one where the hand-off succeeds. -/
theorem activation_replenish_order_witness :
    (countOcc WorkerEvent.replenishSignal (run_proxy_connection failEnv).1 = 1
      ∧ countOcc WorkerEvent.replenishSignal
          (prefixBefore isLocalConnect (run_proxy_connection failEnv).1) = 1)
    ∧ (countOcc WorkerEvent.replenishSignal (run_proxy_connection activeEnv).1 = 1
      ∧ countOcc WorkerEvent.replenishSignal
          (prefixBefore isLocalConnect (run_proxy_connection activeEnv).1) = 1) :=
  ⟨activation_replenish_order failEnv (by decide),
   activation_replenish_order activeEnv (by decide)⟩

lemma trackConnection_length_le (s : ConnectionsQueue) (id : Nat)
    (h : s.queue.length ≤ MAX_READY_CONNECTIONS) :
    (trackConnection s id).queue.length ≤ MAX_READY_CONNECTIONS := by
  unfold trackConnection
  by_cases h4 : s.queue.length = MAX_READY_CONNECTIONS
  · rw [if_pos h4]
    rcases hs : s.queue with _ | ⟨a, q⟩
    · rw [hs] at h4
      simp [MAX_READY_CONNECTIONS] at h4
    · have hq : q.length = 3 := by
        rw [hs] at h4
        simp [MAX_READY_CONNECTIONS] at h4
        omega
      simp [hs, hq, MAX_READY_CONNECTIONS]
  · rw [if_neg h4]
    by_cases h5 : s.queue.length < MAX_READY_CONNECTIONS
    · rw [if_pos h5]
      simp only [List.length_append, List.length_singleton]
      omega
    · rw [if_neg h5]
      exact h

lemma foldl_track_le (ids : List Nat) :
    ∀ s : ConnectionsQueue, s.queue.length ≤ MAX_READY_CONNECTIONS →
      (ids.foldl trackConnection s).queue.length ≤ MAX_READY_CONNECTIONS := by
  induction ids with
  | nil => intro s h; exact h
  | cons i t ih =>
    intro s h
    exact ih _ (trackConnection_length_le s i h)

/-- C10: the supervisor's tracking queue never holds more than
MAX_READY_CONNECTIONS = 4 guards, and whenever a worker is spawned while
the queue is full, the oldest tracked worker's guard is popped and
dropped — cancelling that worker's token — before the new worker's guard
is pushed. -/
theorem pool_tracks_at_most_four :
    (∀ ids : List Nat,
        (ids.foldl trackConnection { queue := [], cancelled := [] }).queue.length
          ≤ MAX_READY_CONNECTIONS)
    ∧ (∀ (a : Nat) (q c : List Nat) (id : Nat),
        (a :: q).length = MAX_READY_CONNECTIONS →
        trackConnection { queue := a :: q, cancelled := c } id
          = { queue := q ++ [id], cancelled := c ++ [a] }) := by
  constructor
  · intro ids
    exact foldl_track_le ids _ (by simp)
  · intro a q c id h
    have hq : q.length = 3 := by
      simp [MAX_READY_CONNECTIONS] at h
      omega
    have hlt : q.length < MAX_READY_CONNECTIONS := by
      rw [hq]
      decide
    unfold trackConnection
    rw [if_pos h]
    simp only
    rw [if_pos hlt]

/-- Witness for C10: spawning a fifth worker while four are tracked pops
and cancels the oldest guard before pushing the new one. -/
theorem pool_tracks_at_most_four_witness :
    trackConnection { queue := [0, 1, 2, 3], cancelled := [] } 9
      = { queue := [1, 2, 3, 9], cancelled := [0] } :=
  pool_tracks_at_most_four.2 0 [1, 2, 3] [] 9 (by decide)

end Portalbox
